import Mathlib

/-!
Verification of the tool-calling orchestration core of the ai-sdk example
repository.  The repository routes delegate the actual loop to the external
SDK (`streamText` with `stopWhen: stepCountIs(2)`), so the orchestrator,
registry operations and lifecycle state machine are modelled from the
specification; the concrete tool (`getWeather` in the multi-modal-chat
route) and the HTTP error responses of the routes are embedded directly
from the source files.
-/

namespace AiSdk

/-- Message roles: `user`, `assistant`, `tool`. -/
inductive Role
  | user
  | assistant
  | tool
deriving DecidableEq, BEq

/-- Lifecycle state of a tool invocation, drawn from the specification
state machine `requested, input-ready, executing, succeeded, failed`. -/
inductive LifecycleState
  | requested
  | inputReady
  | executing
  | succeeded
  | failed
deriving DecidableEq

/-- Per-invocation error taxonomy of the specification. -/
inductive ToolError
  | UnknownTool
  | SchemaValidationError
  | ToolExecutionError
deriving DecidableEq

/-- Registry-level error taxonomy of the specification. -/
inductive RegistryError
  | DuplicateToolName
deriving DecidableEq

/-- Result of one tool execution function: an output payload or a failure. -/
inductive ExecResult
  | success (out : String)
  | failure
deriving DecidableEq

/-- Outcome recorded in a `tool-result` Part: output payload or error. -/
inductive ExecOutcome
  | ok (out : String)
  | error (e : ToolError)
deriving DecidableEq

/-- Part: tagged variant over text, tool-call, tool-result and source. -/
inductive Part
  | text (payload : String)
  | toolCall (name : String) (callId : String) (input : String) (state : LifecycleState)
  | toolResult (callId : String) (output : ExecOutcome)
  | source (uri : String) (title : Option String)
deriving DecidableEq

/-- Message: a role together with an ordered sequence of Parts. -/
structure Message where
  role : Role
  parts : List Part
deriving DecidableEq

/-- A tool invocation request extracted from an assistant Message. -/
structure ToolCall where
  name : String
  callId : String
  input : String
deriving DecidableEq

/-- One recorded tool result (success or failure) for a call id. -/
structure ToolResult where
  callId : String
  output : ExecOutcome
deriving DecidableEq

/-- Tool Definition: name, description, input schema and execution
function, as in the specification data model. -/
structure ToolDef where
  name : String
  description : String
  inputSchema : String → Bool
  execute : String → ExecResult

/-- The Tool Registry: tools in registration order. -/
abbrev Registry := List ToolDef

/-- Look a tool up by name; `none` plays the role of `UnknownTool`. -/
def lookup (reg : Registry) (n : String) : Option ToolDef :=
  reg.find? (fun td => td.name == n)

/-- Whether a tool with the given name is already registered. -/
def containsName (reg : Registry) (n : String) : Bool :=
  reg.any (fun td => td.name == n)

/-- Modelled from the spec: `register(name, description, inputSchema,
execute)` fails with `DuplicateToolName` if `name` is already present;
the source has only a statically-defined `tools` object literal and no
register operation. -/
def register (reg : Registry) (n d : String) (s : String → Bool)
    (e : String → ExecResult) : Except RegistryError Registry :=
  if containsName reg n then Except.error RegistryError.DuplicateToolName
  else Except.ok (reg ++ [⟨n, d, s, e⟩])

/-- The registry state after an attempted registration: unchanged when
the registration failed. -/
def applyRegister (reg : Registry) (n d : String) (s : String → Bool)
    (e : String → ExecResult) : Registry :=
  match register reg n d s e with
  | Except.ok r => r
  | Except.error _ => reg

/-- Lazy sequence of all registered descriptions, in registration order. -/
def describeAll (reg : Registry) : List (String × String) :=
  reg.map (fun td => (td.name, td.description))

/-- Modelled from the spec: resolve one tool invocation.  An unknown name
is recorded as `UnknownTool`, a schema-invalid input as
`SchemaValidationError` (execution not attempted), a failing execution as
`ToolExecutionError`; otherwise the output payload is recorded. -/
def execOne (reg : Registry) (c : ToolCall) : ToolResult :=
  match lookup reg c.name with
  | none => ⟨c.callId, ExecOutcome.error ToolError.UnknownTool⟩
  | some td =>
    if td.inputSchema c.input then
      match td.execute c.input with
      | ExecResult.success out => ⟨c.callId, ExecOutcome.ok out⟩
      | ExecResult.failure => ⟨c.callId, ExecOutcome.error ToolError.ToolExecutionError⟩
    else ⟨c.callId, ExecOutcome.error ToolError.SchemaValidationError⟩

/-- The tool results of one step, in the call order of the assistant
Message. -/
def executeStep (reg : Registry) (calls : List ToolCall) : List ToolResult :=
  calls.map (execOne reg)

/-- Modelled from the spec: concurrent fan-out within one step.  Results
arrive in an arbitrary completion order (`completed` is the list of calls
in the order in which their executions finished); the orchestrator
re-sorts the arrived results to match the call order before appending. -/
def gatherStep (reg : Registry) (calls completed : List ToolCall) : List ToolResult :=
  calls.filterMap (fun c => (completed.map (execOne reg)).find? (fun r => r.callId == c.callId))

/-- The tool invocation requests contained in a Message. -/
def toolCallsOf (m : Message) : List ToolCall :=
  m.parts.filterMap (fun p => match p with
    | Part.toolCall n id input _ => some ⟨n, id, input⟩
    | _ => none)

/-- The `tool` Message consolidating one step's results. -/
def toolMessage (results : List ToolResult) : Message :=
  ⟨Role.tool, results.map (fun r => Part.toolResult r.callId r.output)⟩

/-- The abstract Model Caller collaborator: maps the current history to
the next assistant Message. -/
abbrev ModelCaller := List Message → Message

/-- Result of one orchestrator turn: the accumulated history, the number
of Model Caller invocations, and whether `StepBudgetExceeded` was
reported. -/
structure RunResult where
  history : List Message
  modelCalls : Nat
  stepBudgetExceeded : Bool
deriving DecidableEq

/-- Modelled from the spec: one orchestrator iteration.  Call the Model
Caller, append its assistant Message; when it contains tool calls,
execute them and append the consolidated `tool` Message, flagging that
the loop continues. -/
def stepOnce (mc : ModelCaller) (reg : Registry) (h : List Message) : List Message × Bool :=
  let asst := mc h
  let calls := toolCallsOf asst
  if calls.isEmpty then (h ++ [asst], false)
  else (h ++ [asst, toolMessage (executeStep reg calls)], true)

/-- Modelled from the spec: the bounded orchestrator loop.  Each
iteration consumes one unit of the step budget; when the budget reaches
zero with tool calls still pending, the turn reports
`StepBudgetExceeded` instead of looping further. -/
def loop (mc : ModelCaller) (reg : Registry) : Nat → List Message → Nat → RunResult
  | 0, h, calls => ⟨h, calls, true⟩
  | fuel + 1, h, calls =>
    if (stepOnce mc reg h).2 then loop mc reg fuel (stepOnce mc reg h).1 (calls + 1)
    else ⟨(stepOnce mc reg h).1, calls + 1, false⟩

/-- Modelled from the spec: `run(history, registry, stepBudget)`. -/
def run (mc : ModelCaller) (reg : Registry) (budget : Nat) (h : List Message) : RunResult :=
  loop mc reg budget h 0

/-- From the source: both tool-calling routes fix the budget with
`stopWhen: stepCountIs(2)`. -/
def routeStepBudget : Nat := 2

/-- Whether the last assistant Message of a history (when one exists)
contains no tool-call Parts. -/
def lastAssistantHasNoToolCalls (h : List Message) : Bool :=
  match (h.filter (fun m => m.role == Role.assistant)).getLast? with
  | none => true
  | some m => (toolCallsOf m).isEmpty

/-- Embedded from src/src/app/api/multi-modal-chat/route.ts: the
`execute` function of the registered `getWeather` tool. -/
def getWeatherExecute (city : String) : String :=
  if city = "Cairo" then "The current weather in Cairo is 30°C, sunny."
  else if city = "Alexandria" then "The current weather in Alexandria is 22°C, partly cloudy."
  else "Sorry, I don't have the weather information for " ++ city ++ "."

/-- Embedded from src/src/app/api/multi-modal-chat/route.ts: the
`getWeather` entry of the `tools` object literal.  The zod schema
accepts any string city, and the execute function never throws. -/
def getWeatherTool : ToolDef :=
  { name := "getWeather"
    description := "Get the current weather for a given location."
    inputSchema := fun _ => true
    execute := fun city => ExecResult.success (getWeatherExecute city) }

/-- The registry of the multi-modal-chat route: exactly one tool. -/
def weatherRegistry : Registry := [getWeatherTool]

/-- The initial user Message of Scenario A. -/
def cairoQuery : Message := ⟨Role.user, [Part.text "weather in Cairo?"]⟩

/-- Scenario A initial history. -/
def historyA : List Message := [cairoQuery]

/-- Scenario A mock Model Caller: requests `getWeather({city:"Cairo"})`
first, and answers with a final text Message once a tool result is the
last Message of the history. -/
def mcA : ModelCaller := fun h =>
  match h.getLast? with
  | some m =>
    if m.role = Role.tool then
      ⟨Role.assistant, [Part.text "The current weather in Cairo is 30°C, sunny."]⟩
    else
      ⟨Role.assistant, [Part.toolCall "getWeather" "call-1" "Cairo" LifecycleState.requested]⟩
  | none => ⟨Role.assistant, [Part.text "Hello!"]⟩

/-- The expected final history of Scenario A. -/
def historyAFinal : List Message :=
  [cairoQuery,
   ⟨Role.assistant, [Part.toolCall "getWeather" "call-1" "Cairo" LifecycleState.requested]⟩,
   ⟨Role.tool, [Part.toolResult "call-1" (ExecOutcome.ok "The current weather in Cairo is 30°C, sunny.")]⟩,
   ⟨Role.assistant, [Part.text "The current weather in Cairo is 30°C, sunny."]⟩]

/-- A history whose last assistant Message carries only text. -/
def historyC2 : List Message :=
  [⟨Role.assistant, [Part.text "Hello!"]⟩,
   ⟨Role.user, [Part.text "weather in Cairo?"]⟩]

/-- A Model Caller that always answers with plain text. -/
def mcText : ModelCaller := fun _ => ⟨Role.assistant, [Part.text "Hi there."]⟩

/-- A response body: either a JSON object of string fields or plain text. -/
inductive BodyModel
  | json (fields : List (String × String))
  | plain (text : String)
deriving DecidableEq

/-- An HTTP response: status code and body. -/
structure HttpResponse where
  status : Nat
  body : BodyModel
deriving DecidableEq

/-- Outcome of handling one completion request: the awaited generation
succeeded with some text, or body parsing / generation threw. -/
inductive CompletionOutcome
  | success (text : String)
  | failure

/-- Embedded from src/src/app/api/completion/route.ts: the POST handler
returns `Response.json({ text })` on success and
`Response.json({ error: "Failed to generate text" })` in the catch
branch; `Response.json` defaults to HTTP status 200 in both cases. -/
def completionPOST : CompletionOutcome → HttpResponse
  | CompletionOutcome.success t => ⟨200, BodyModel.json [("text", t)]⟩
  | CompletionOutcome.failure => ⟨200, BodyModel.json [("error", "Failed to generate text")]⟩

/-- Embedded from src/src/app/api/api-tool/route.ts: the catch branch
returns `new Response("Failed to stream chat completion", { status: 500 })`. -/
def apiToolErrorResponse : HttpResponse :=
  ⟨500, BodyModel.plain "Failed to stream chat completion"⟩

/-- Embedded from src/src/app/api/multi-modal-chat/route.ts: the catch
branch returns status 500 with a plain failure body. -/
def multiModalChatErrorResponse : HttpResponse :=
  ⟨500, BodyModel.plain "Failed to stream chat completion"⟩

/-- Numeric rank of a lifecycle state along the one-directional chain
of the specification state machine. -/
def stateRank : LifecycleState → Nat
  | LifecycleState.requested => 0
  | LifecycleState.inputReady => 1
  | LifecycleState.executing => 2
  | LifecycleState.succeeded => 3
  | LifecycleState.failed => 3

/-- Modelled from the spec: the permitted lifecycle transitions of one
tool invocation, `requested → input-ready → executing → succeeded or
failed`, where a schema-validation failure (or unknown tool) goes
directly from `requested` to `failed` without entering `executing`. -/
inductive LifecycleTransition : LifecycleState → LifecycleState → Prop
  | provideInput : LifecycleTransition LifecycleState.requested LifecycleState.inputReady
  | startExecuting : LifecycleTransition LifecycleState.inputReady LifecycleState.executing
  | succeed : LifecycleTransition LifecycleState.executing LifecycleState.succeeded
  | execFail : LifecycleTransition LifecycleState.executing LifecycleState.failed
  | validationFail : LifecycleTransition LifecycleState.requested LifecycleState.failed

/-- Whether a recorded tool result is a success. -/
def isSuccessResult (r : ToolResult) : Bool :=
  match r.output with
  | ExecOutcome.ok _ => true
  | ExecOutcome.error _ => false

/-- Whether a recorded tool result is a failure. -/
def isFailureResult (r : ToolResult) : Bool :=
  match r.output with
  | ExecOutcome.ok _ => false
  | ExecOutcome.error _ => true

/-- A tool whose execution function always fails. -/
def boomTool : ToolDef :=
  { name := "boom"
    description := "Always fails."
    inputSchema := fun _ => true
    execute := fun _ => ExecResult.failure }

/-- A registry with one succeeding and one failing tool. -/
def isolationRegistry : Registry := [getWeatherTool, boomTool]

/-- Two sibling invocations in one step: a succeeding one and a failing
one. -/
def isolationCalls : List ToolCall :=
  [⟨"getWeather", "call-1", "Cairo"⟩, ⟨"boom", "call-2", "x"⟩]

/-- First tool call of the two-call ordering scenario. -/
def callCairo : ToolCall := ⟨"getWeather", "call-1", "Cairo"⟩

/-- Second tool call of the two-call ordering scenario. -/
def callAlex : ToolCall := ⟨"getWeather", "call-2", "Alexandria"⟩

/-- The call order of the assistant Message in the ordering scenario. -/
def orderedCalls : List ToolCall := [callCairo, callAlex]

/-- A completion order where the tool listed first finished last. -/
def scrambledCompletion : List ToolCall := [callAlex, callCairo]

theorem loop_modelCalls_le (mc : ModelCaller) (reg : Registry) :
    ∀ (fuel : Nat) (h : List Message) (calls : Nat),
      (loop mc reg fuel h calls).modelCalls ≤ calls + fuel := by
  intro fuel
  induction fuel with
  | zero => intro h calls; simp [loop]
  | succ n ih =>
    intro h calls
    cases hs : (stepOnce mc reg h).2 with
    | true =>
      simp only [loop, hs, if_true]
      calc (loop mc reg n (stepOnce mc reg h).1 (calls + 1)).modelCalls
          ≤ (calls + 1) + n := ih (stepOnce mc reg h).1 (calls + 1)
        _ = calls + (n + 1) := by omega
    | false =>
      simp [loop, hs]

/-- C1: for every positive step budget N, every Model Caller, registry
and history, `run` performs at most N Model Caller invocations; the loop
terminates by construction (`run` is a total, structurally recursive
function of the budget).  With the budget fixed by
`stopWhen: stepCountIs(2)` in the routes (`routeStepBudget = 2`), each
POST handler triggers at most 2 model calls per turn. -/
theorem run_modelCalls_le_budget (mc : ModelCaller) (reg : Registry)
    (N : Nat) (h : List Message) (hN : 1 ≤ N) :
    (run mc reg N h).modelCalls ≤ N := by
  have := loop_modelCalls_le mc reg N h 0
  simpa [run] using this

theorem run_modelCalls_le_budget_witness :
    1 ≤ routeStepBudget ∧
      (run mcA weatherRegistry routeStepBudget historyA).modelCalls ≤ routeStepBudget :=
  ⟨by decide, run_modelCalls_le_budget mcA weatherRegistry routeStepBudget historyA (by decide)⟩

/-- C5: Scenario A.  With the registry of the multi-modal-chat route,
the initial history [user: "weather in Cairo?"], the budget 2 fixed by
`stopWhen: stepCountIs(2)`, and a mock Model Caller that first requests
`getWeather({city:"Cairo"})` and then answers with text, `run` returns
exactly the 4-message history (user, assistant/tool-call,
tool/tool-result, assistant/text), makes exactly 2 Model Caller
invocations and does not report `StepBudgetExceeded`; the registered
execute maps "Cairo" to the 30°C-sunny string. -/
theorem scenarioA_run :
    run mcA weatherRegistry routeStepBudget historyA = ⟨historyAFinal, 2, false⟩ ∧
      getWeatherExecute "Cairo" = "The current weather in Cairo is 30°C, sunny." := by
  constructor
  · decide
  · decide

/-- C8: registering a name already present in the registry fails with
`DuplicateToolName` and leaves the registry unchanged.  The `register`
operation is modelled from the spec: the source has only the
statically-defined `tools` object literal, with no register operation. -/
theorem register_duplicate_fails (reg : Registry) (n d : String)
    (s : String → Bool) (e : String → ExecResult)
    (hdup : containsName reg n = true) :
    register reg n d s e = Except.error RegistryError.DuplicateToolName ∧
      applyRegister reg n d s e = reg := by
  refine ⟨?_, ?_⟩ <;> simp [register, applyRegister, hdup]

theorem register_duplicate_fails_witness :
    containsName weatherRegistry "getWeather" = true ∧
      (register weatherRegistry "getWeather" "another weather tool"
          (fun _ => true) (fun _ => ExecResult.failure)
        = Except.error RegistryError.DuplicateToolName ∧
      applyRegister weatherRegistry "getWeather" "another weather tool"
          (fun _ => true) (fun _ => ExecResult.failure) = weatherRegistry) :=
  ⟨by decide,
   register_duplicate_fails weatherRegistry "getWeather" "another weather tool"
     (fun _ => true) (fun _ => ExecResult.failure) (by decide)⟩

/-- C9: the `execute` function of the `getWeather` tool registered in
the multi-modal-chat route is total over all string city inputs: the
fixed Cairo string for "Cairo", the fixed Alexandria string for
"Alexandria", the apology string mentioning the city for every other
string; the registered execute never fails, so a schema-valid
invocation of this tool never produces a `ToolExecutionError` result. -/
theorem getWeather_execute_total :
    getWeatherExecute "Cairo" = "The current weather in Cairo is 30°C, sunny." ∧
    getWeatherExecute "Alexandria" = "The current weather in Alexandria is 22°C, partly cloudy." ∧
    (∀ city, city ≠ "Cairo" → city ≠ "Alexandria" →
      getWeatherExecute city = "Sorry, I don't have the weather information for " ++ city ++ ".") ∧
    (∀ city, getWeatherTool.execute city = ExecResult.success (getWeatherExecute city)) ∧
    (∀ c : ToolCall, c.name = "getWeather" →
      execOne weatherRegistry c = ⟨c.callId, ExecOutcome.ok (getWeatherExecute c.input)⟩) := by
  refine ⟨by decide, by decide, ?_, fun _ => rfl, ?_⟩
  · intro city h1 h2
    simp [getWeatherExecute, h1, h2]
  · intro c hc
    simp [execOne, lookup, weatherRegistry, getWeatherTool, hc]

/-- C2 counterexample: a history whose last assistant Message carries
only text, on which `run` still makes two Model Caller invocations,
because the loop is driven by the Model Caller response, not by the
input history. -/
theorem run_two_calls_despite_clean_last_assistant :
    lastAssistantHasNoToolCalls historyC2 = true ∧
    historyC2 ≠ [] ∧
    (run mcA weatherRegistry routeStepBudget historyC2).modelCalls = 2 := by
  refine ⟨by decide, by decide, by decide⟩

/-- C2 amended: when the Model Caller response to the history contains
no tool-call Parts, `run` terminates after exactly one iteration (one
Model Caller invocation), appending only that assistant Message, without
reporting `StepBudgetExceeded`. -/
theorem run_single_call_when_model_emits_no_tool_calls
    (mc : ModelCaller) (reg : Registry) (h : List Message) (N : Nat)
    (hN : 1 ≤ N) (hmc : toolCallsOf (mc h) = []) :
    (run mc reg N h).modelCalls = 1 ∧
    (run mc reg N h).history = h ++ [mc h] ∧
    (run mc reg N h).stepBudgetExceeded = false := by
  obtain ⟨n, rfl⟩ : ∃ n, N = n + 1 := ⟨N - 1, by omega⟩
  have hstep : stepOnce mc reg h = (h ++ [mc h], false) := by
    simp [stepOnce, hmc]
  refine ⟨?_, ?_, ?_⟩ <;> simp [run, loop, hstep]

theorem run_single_call_when_model_emits_no_tool_calls_witness :
    1 ≤ routeStepBudget ∧ toolCallsOf (mcText historyA) = [] ∧
    ((run mcText weatherRegistry routeStepBudget historyA).modelCalls = 1 ∧
     (run mcText weatherRegistry routeStepBudget historyA).history
        = historyA ++ [mcText historyA] ∧
     (run mcText weatherRegistry routeStepBudget historyA).stepBudgetExceeded = false) :=
  ⟨by decide, by decide,
   run_single_call_when_model_emits_no_tool_calls mcText weatherRegistry historyA
     routeStepBudget (by decide) (by decide)⟩

/-- C6: the lifecycle state machine is one-directional: the state rank
strictly increases on every permitted transition (so no trace re-enters
an earlier state), `succeeded` and `failed` have no outgoing
transitions, and a schema-invalid invocation goes directly from
`requested` to `failed`: `execOne` records `SchemaValidationError`
without consulting the execution function. -/
theorem invocation_lifecycle_monotonic :
    (∀ s t, LifecycleTransition s t → stateRank s < stateRank t) ∧
    (∀ s t, Relation.ReflTransGen LifecycleTransition s t → stateRank s ≤ stateRank t) ∧
    (∀ t, ¬ LifecycleTransition LifecycleState.succeeded t) ∧
    (∀ t, ¬ LifecycleTransition LifecycleState.failed t) ∧
    LifecycleTransition LifecycleState.requested LifecycleState.failed ∧
    (∀ (reg : Registry) (c : ToolCall) (td : ToolDef),
       lookup reg c.name = some td → td.inputSchema c.input = false →
       execOne reg c = ⟨c.callId, ExecOutcome.error ToolError.SchemaValidationError⟩) := by
  have hstep : ∀ s t, LifecycleTransition s t → stateRank s < stateRank t := by
    intro s t h; cases h <;> decide
  refine ⟨hstep, ?_, ?_, ?_, LifecycleTransition.validationFail, ?_⟩
  · intro s t h
    induction h with
    | refl => exact le_refl _
    | tail _ hst ih => exact le_trans ih (le_of_lt (hstep _ _ hst))
  · intro t h; cases h
  · intro t h; cases h
  · intro reg c td hl hs
    simp [execOne, hl, hs]

theorem stepOnce_extends (mc : ModelCaller) (reg : Registry) (h : List Message) :
    ∃ t, t ≠ [] ∧ (stepOnce mc reg h).1 = h ++ t := by
  cases hc : (toolCallsOf (mc h)).isEmpty with
  | true => exact ⟨[mc h], by simp, by simp [stepOnce, hc]⟩
  | false =>
    exact ⟨[mc h, toolMessage (executeStep reg (toolCallsOf (mc h)))],
      by simp, by simp [stepOnce, hc]⟩

theorem loop_extends (mc : ModelCaller) (reg : Registry) :
    ∀ (fuel : Nat) (h : List Message) (calls : Nat),
      ∃ t, (loop mc reg fuel h calls).history = h ++ t := by
  intro fuel
  induction fuel with
  | zero => intro h calls; exact ⟨[], by simp [loop]⟩
  | succ n ih =>
    intro h calls
    cases hs : (stepOnce mc reg h).2 with
    | false =>
      obtain ⟨t, _, ht⟩ := stepOnce_extends mc reg h
      exact ⟨t, by simp [loop, hs, ht]⟩
    | true =>
      obtain ⟨t0, _, ht0⟩ := stepOnce_extends mc reg h
      obtain ⟨t1, ht1⟩ := ih (stepOnce mc reg h).1 (calls + 1)
      rw [ht0] at ht1
      refine ⟨t0 ++ t1, ?_⟩
      simp only [loop, hs, if_true]
      rw [ht0, ht1, List.append_assoc]

/-- C7: the message history is append-only.  Every single orchestrator
iteration extends the history by a non-empty suffix, leaving the prior
Messages (and their Parts) untouched as a strict initial segment, and
the whole run only ever appends to the initial history; in this pure
model Parts are values, so no Part instance is ever mutated in place. -/
theorem history_append_only :
    (∀ (mc : ModelCaller) (reg : Registry) (h : List Message),
       ∃ t, t ≠ [] ∧ (stepOnce mc reg h).1 = h ++ t) ∧
    (∀ (mc : ModelCaller) (reg : Registry) (N : Nat) (h : List Message),
       ∃ t, (run mc reg N h).history = h ++ t) :=
  ⟨stepOnce_extends, fun mc reg N h => loop_extends mc reg N h 0⟩

theorem execOne_callId (reg : Registry) (c : ToolCall) :
    (execOne reg c).callId = c.callId := by
  unfold execOne
  cases hl : lookup reg c.name with
  | none => rfl
  | some td =>
    cases hs : td.inputSchema c.input with
    | false => simp [hs]
    | true =>
      cases he : td.execute c.input with
      | success out => simp [hs, he]
      | failure => simp [hs, he]

theorem find_result_of_mem (reg : Registry) :
    ∀ (l : List ToolCall) (c : ToolCall), c ∈ l →
      (l.map ToolCall.callId).Nodup →
      (l.map (execOne reg)).find? (fun r => r.callId == c.callId)
        = some (execOne reg c) := by
  intro l
  induction l with
  | nil => intro c hc _; cases hc
  | cons d t ih =>
    intro c hc hnd
    rw [List.map_cons] at hnd
    have hnd' := List.nodup_cons.mp hnd
    rw [List.map_cons, List.find?_cons]
    cases hb : ((execOne reg d).callId == c.callId) with
    | true =>
      have hdc : d.callId = c.callId := by
        rw [execOne_callId] at hb
        exact eq_of_beq hb
      rcases List.mem_cons.mp hc with rfl | hct
      · rfl
      · exact absurd (by rw [hdc]; exact List.mem_map_of_mem ToolCall.callId hct) hnd'.1
    | false =>
      have hct : c ∈ t := by
        rcases List.mem_cons.mp hc with rfl | hct
        · rw [execOne_callId] at hb
          simp at hb
        · exact hct
      exact ih c hct hnd'.2

theorem filterMap_eq_map_of_forall {α β : Type} (g : α → β) :
    ∀ (l : List α) (f : α → Option β),
      (∀ a ∈ l, f a = some (g a)) → l.filterMap f = l.map g := by
  intro l
  induction l with
  | nil => intro f _; rfl
  | cons a t ih =>
    intro f hf
    have h1 : f a = some (g a) := hf a (List.mem_cons_self a t)
    simp [List.filterMap_cons, h1,
      ih f (fun x hx => hf x (List.mem_cons_of_mem a hx))]

/-- C3: the `tool-result` Parts emitted for one step are ordered by the
corresponding tool-call order of the assistant Message, for every
completion order of the concurrent executions: when the distinct-id
calls of the step finish in any permuted order, the re-sorted results
equal the call-order results, one result per invocation. -/
theorem tool_results_follow_call_order (reg : Registry)
    (calls completed : List ToolCall)
    (hperm : completed.Perm calls)
    (hnodup : (calls.map ToolCall.callId).Nodup) :
    gatherStep reg calls completed = executeStep reg calls ∧
    (gatherStep reg calls completed).length = calls.length ∧
    (∀ i (hi : i < calls.length),
       (gatherStep reg calls completed).get? i
          = some (execOne reg (calls.get ⟨i, hi⟩))) := by
  have hnodC : (completed.map ToolCall.callId).Nodup :=
    ((hperm.map ToolCall.callId).nodup_iff).mpr hnodup
  have hmain : gatherStep reg calls completed = calls.map (execOne reg) := by
    show calls.filterMap
        (fun c => (completed.map (execOne reg)).find? (fun r => r.callId == c.callId))
      = calls.map (execOne reg)
    apply filterMap_eq_map_of_forall
    intro c hc
    exact find_result_of_mem reg completed c (hperm.mem_iff.mpr hc) hnodC
  refine ⟨hmain, by rw [hmain, List.length_map], ?_⟩
  intro i hi
  rw [hmain, List.get?_map, List.get?_eq_get hi]
  rfl

theorem tool_results_follow_call_order_witness :
    scrambledCompletion.Perm orderedCalls ∧
    (orderedCalls.map ToolCall.callId).Nodup ∧
    (gatherStep weatherRegistry orderedCalls scrambledCompletion
        = executeStep weatherRegistry orderedCalls ∧
     (gatherStep weatherRegistry orderedCalls scrambledCompletion).length
        = orderedCalls.length ∧
     (∀ i (hi : i < orderedCalls.length),
        (gatherStep weatherRegistry orderedCalls scrambledCompletion).get? i
           = some (execOne weatherRegistry (orderedCalls.get ⟨i, hi⟩)))) :=
  ⟨by decide, by decide,
   tool_results_follow_call_order weatherRegistry orderedCalls scrambledCompletion
     (by decide) (by decide)⟩

/-- C4: per-invocation failures are isolated.  The recorded result of
each invocation of a step is a function of that invocation alone: a
failing sibling never changes a succeeding result, every invocation of
the step gets exactly one recorded result, and the step never aborts. -/
theorem tool_failure_isolated (reg : Registry) (calls : List ToolCall)
    (i j : Nat) (hi : i < calls.length) (hj : j < calls.length)
    (hfail : isFailureResult (execOne reg (calls.get ⟨j, hj⟩)) = true)
    (hsucc : isSuccessResult (execOne reg (calls.get ⟨i, hi⟩)) = true) :
    (executeStep reg calls).length = calls.length ∧
    (executeStep reg calls).get? i = some (execOne reg (calls.get ⟨i, hi⟩)) ∧
    (executeStep reg calls).get? j = some (execOne reg (calls.get ⟨j, hj⟩)) ∧
    (∃ r, (executeStep reg calls).get? i = some r ∧ isSuccessResult r = true) := by
  have hgeti : (executeStep reg calls).get? i
      = some (execOne reg (calls.get ⟨i, hi⟩)) := by
    show (calls.map (execOne reg)).get? i = _
    rw [List.get?_map, List.get?_eq_get hi]
    rfl
  have hgetj : (executeStep reg calls).get? j
      = some (execOne reg (calls.get ⟨j, hj⟩)) := by
    show (calls.map (execOne reg)).get? j = _
    rw [List.get?_map, List.get?_eq_get hj]
    rfl
  exact ⟨by simp [executeStep], hgeti, hgetj,
    ⟨execOne reg (calls.get ⟨i, hi⟩), hgeti, hsucc⟩⟩

theorem tool_failure_isolated_witness :
    (0 < isolationCalls.length ∧ 1 < isolationCalls.length) ∧
    isFailureResult (execOne isolationRegistry (isolationCalls.get ⟨1, by decide⟩)) = true ∧
    isSuccessResult (execOne isolationRegistry (isolationCalls.get ⟨0, by decide⟩)) = true ∧
    ((executeStep isolationRegistry isolationCalls).length = isolationCalls.length ∧
     (executeStep isolationRegistry isolationCalls).get? 0
        = some (execOne isolationRegistry (isolationCalls.get ⟨0, by decide⟩)) ∧
     (executeStep isolationRegistry isolationCalls).get? 1
        = some (execOne isolationRegistry (isolationCalls.get ⟨1, by decide⟩)) ∧
     (∃ r, (executeStep isolationRegistry isolationCalls).get? 0 = some r ∧
        isSuccessResult r = true)) :=
  ⟨⟨by decide, by decide⟩, by decide, by decide,
   tool_failure_isolated isolationRegistry isolationCalls 0 1
     (by decide) (by decide) (by decide) (by decide)⟩

/-- C10: on a thrown body parse or text generation, the completion route
returns the JSON body with the "Failed to generate text" error and the
default HTTP status 200; the other routes return status 500 on failure,
so for the completion route alone a client cannot distinguish success
from failure by status code. -/
theorem completion_route_error_status :
    completionPOST CompletionOutcome.failure
        = ⟨200, BodyModel.json [("error", "Failed to generate text")]⟩ ∧
    (∀ t, (completionPOST (CompletionOutcome.success t)).status = 200) ∧
    (∀ o, (completionPOST o).status = 200) ∧
    apiToolErrorResponse.status = 500 ∧
    multiModalChatErrorResponse.status = 500 := by
  refine ⟨rfl, fun _ => rfl, fun o => ?_, rfl, rfl⟩
  cases o <;> rfl

end AiSdk
